import Mathlib

set_option maxRecDepth 10000

/-!
Verification of the Voice_chat repository core: the UDP audio receiver
(audio_receiver.py), the DSP filter chain (audio_filter.py with constants
from audio_config.py) and the call-signaling state machine
(ui_modules/ui_backend_flet.py and ui.py).

Conventions of the shallow embedding:
* byte buffers are `List Nat` (each entry one byte value);
* 16-bit signed samples are `Int`; IEEE float arithmetic of the source is
  modelled by exact arithmetic (`Rat` where the source only uses field
  operations, `Real`/`Complex` where it uses sqrt, sin/cos, exp or FFTs);
* Python functions that swallow exceptions are modelled by `Option`-valued
  parsing plus an explicit fall-back to the unmodified input;
* module-level mutable globals become explicit state records threaded
  through the functions.
-/

/-! ### Receiver model (audio_receiver.py)

A datagram as produced by `sock.recvfrom`: raw bytes plus sender address. -/

structure Datagram where
  bytes : List Nat
  addr : String
deriving DecidableEq, Repr

/-- Events emitted by `receive_audio` towards the signaling layer: the
incoming-call callback receives the decoded message and the sender address,
the plain text callback receives the decoded message only (this mirrors
`_incoming_call_callback(message, addr[0])` vs `_text_message_callback(message)`
in audio_receiver.py). Messages are lists of Unicode code points. -/
inductive RecvEvent where
  | incomingCall (message : List Nat) (addr : String)
  | textMessage (message : List Nat)
deriving DecidableEq, Repr

/-- Strict UTF-8 decoding of a byte list to code points, as performed by
Python's `bytes.decode('utf-8')`: rejects truncated sequences, stray
continuation bytes, overlong encodings, surrogates and code points above
U+10FFFF.  Returns `none` where Python raises `UnicodeDecodeError`. -/
def utf8Decode : List Nat → Option (List Nat)
  | [] => some []
  | b :: rest =>
    if b < 128 then
      (utf8Decode rest).map (fun cps => b :: cps)
    else if 194 ≤ b ∧ b ≤ 223 then
      match rest with
      | b2 :: rest2 =>
        if 128 ≤ b2 ∧ b2 ≤ 191 then
          (utf8Decode rest2).map (fun cps => ((b - 192) * 64 + (b2 - 128)) :: cps)
        else none
      | [] => none
    else if 224 ≤ b ∧ b ≤ 239 then
      match rest with
      | b2 :: b3 :: rest3 =>
        let lo2 := if b = 224 then 160 else 128
        let hi2 := if b = 237 then 159 else 191
        if (lo2 ≤ b2 ∧ b2 ≤ hi2) ∧ (128 ≤ b3 ∧ b3 ≤ 191) then
          (utf8Decode rest3).map
            (fun cps => ((b - 224) * 4096 + (b2 - 128) * 64 + (b3 - 128)) :: cps)
        else none
      | _ => none
    else if 240 ≤ b ∧ b ≤ 244 then
      match rest with
      | b2 :: b3 :: b4 :: rest4 =>
        let lo2 := if b = 240 then 144 else 128
        let hi2 := if b = 244 then 143 else 191
        if (lo2 ≤ b2 ∧ b2 ≤ hi2) ∧ (128 ≤ b3 ∧ b3 ≤ 191) ∧ (128 ≤ b4 ∧ b4 ≤ 191) then
          (utf8Decode rest4).map
            (fun cps =>
              ((b - 240) * 262144 + (b2 - 128) * 4096 + (b3 - 128) * 64 + (b4 - 128)) :: cps)
        else none
      | _ => none
    else none

/-- Code points of the literal protocol string compared against the decoded
message in audio_receiver.py (`"__CALL_REQUEST__"`). -/
def callRequestCodes : List Nat :=
  [95, 95, 67, 65, 76, 76, 95, 82, 69, 81, 85, 69, 83, 84, 95, 95]

/-- One step of the backlog drain loop of `receive_audio` (lines 126-133):
a drained packet replaces the kept latest payload; the tag byte is stripped
only when it equals the audio tag `0x00`, any other packet (text tag `0x01`
included) is kept whole and treated as audio. -/
def drainStep (latest : List Nat) (packet : List Nat) : List Nat :=
  if packet ≠ [] ∧ packet.head? = some 0 then packet.tail else packet

/-- The drain loop of `receive_audio` (`while drained < 5`): reads queued
packets while fewer than 5 have been drained, updating the kept payload by
`drainStep`.  Returns the final payload, the drain count and the queue left
unread.  Recursion is on the queue; the count bound mirrors the source. -/
def drainLoop (latest : List Nat) (drained : Nat) : List Datagram → List Nat × Nat × List Datagram
  | [] => (latest, drained, [])
  | p :: q =>
    if drained < 5 then
      drainLoop (drainStep latest p.bytes) (drained + 1) q
    else (latest, drained, p :: q)

/-- Result of one receive cycle: signaling events emitted, the payload
written to the playback stream (`none` when nothing is played or the frame
is discarded because the session is deafened), the drain count stored in
`_RECV_QUEUE_DEPTH`, and the datagrams still queued after the cycle. -/
structure CycleResult where
  events : List RecvEvent
  played : Option (List Nat)
  depth : Nat
  rest : List Datagram
deriving DecidableEq, Repr

/-- One receive cycle of `receive_audio` (audio_receiver.py lines 80-148)
on the queue of datagrams buffered at the socket.  The first datagram is
read; an empty datagram is skipped; a `0x01`-tagged datagram has its payload
UTF-8 decoded and dispatched (call requests with the sender address, other
messages without; a decode failure is swallowed).  Any other datagram is
audio: the `0x00` tag is stripped if present, the backlog is drained keeping
only the latest payload, and that payload is played unless deafened. -/
def receiveCycle (deafened : Bool) : List Datagram → CycleResult
  | [] => ⟨[], none, 0, []⟩
  | d :: q =>
    if d.bytes = [] then ⟨[], none, 0, q⟩
    else if d.bytes.head? = some 1 then
      match utf8Decode d.bytes.tail with
      | some msg =>
        if msg = callRequestCodes then ⟨[.incomingCall msg d.addr], none, 0, q⟩
        else ⟨[.textMessage msg], none, 0, q⟩
      | none => ⟨[], none, 0, q⟩
    else
      let data := if d.bytes.head? = some 0 then d.bytes.tail else d.bytes
      let r := drainLoop data 0 q
      ⟨[], if deafened then none else some r.1, r.2.1, r.2.2⟩

/-! ### Call-signaling state machine
(ui_modules/ui_backend_flet.py and ui.py)

Both UIs keep the session in the fields `call_state`, `target_ip`,
`incoming_call_ip` and `is_connected`; we model exactly those fields.
Popups, sounds, chat rendering and audio-stream setup have no effect on
them and are omitted. -/

inductive CallState where
  | idle
  | calling
  | ringing
  | connected
deriving DecidableEq, Repr

/-- The session fields shared by `HexChatBackend` (ui_backend_flet.py) and
the legacy `ui.py` app: `call_state`, `target_ip`, `incoming_call_ip`,
`is_connected`.  Addresses are strings; `none` models Python `None`. -/
structure BackendState where
  callState : CallState
  targetIp : Option String
  incomingCallIp : Option String
  isConnected : Bool
deriving DecidableEq, Repr

/-- Protocol message constants of ui_backend_flet.py / ui.py. -/
def CMD_CALL_REQUEST : String := "__CALL_REQUEST__"

def CMD_CALL_ACCEPT : String := "__CALL_ACCEPT__"

def CMD_CALL_REJECT : String := "__CALL_REJECT__"

def CMD_CALL_CANCEL : String := "__CALL_CANCEL__"

def CMD_DISCONNECT : String := "__DISCONNECT__"

/-- Python truthiness of an optional string: `None` and the empty string
are falsy. -/
def truthyStr : Option String → Bool
  | none => false
  | some s => s != ""

/-- The `[SECURITY]` guard pattern of `HexChatBackend.receive_msg_update`:
`if sender_ip and expected and sender_ip != expected: return`.  True when
both are truthy (non-`None`, nonempty) and differ. -/
def senderMismatch : Option String → Option String → Bool
  | some a, some t => a != "" && t != "" && a != t
  | _, _ => false

/-- Python `HexChatBackend._is_self_call`: the caller address equals the local
address, or the loopback literal, or the chained comparison
`caller_ip == self.target_ip == local_ip`. -/
def is_self_call (localIp : String) (s : BackendState) (callerIp : String) : Bool :=
  callerIp == localIp || callerIp == "127.0.0.1" ||
    (s.targetIp == some callerIp && s.targetIp == some localIp)

/-- Python `HexChatBackend._is_mutual_call`: the session must be in `Calling`,
and the caller equals the current target or the call is a self-call. -/
def is_mutual_call (localIp : String) (s : BackendState) (callerIp : String) : Bool :=
  decide (s.callState = CallState.calling) &&
    (s.targetIp == some callerIp || is_self_call localIp s callerIp)

/-- Python `HexChatBackend.show_incoming_call`: on a call request, a mutual call
auto-accepts (state `Connected`, connection flag set, pending incoming
call cleared, no explicit accept consumed); otherwise the caller is
recorded and the session rings.  Any other message is ignored. -/
def show_incoming_call (localIp : String) (s : BackendState)
    (message : String) (callerIp : String) : BackendState :=
  if message = CMD_CALL_REQUEST then
    if is_mutual_call localIp s callerIp then
      { s with incomingCallIp := none, callState := .connected, isConnected := true }
    else
      { s with incomingCallIp := some callerIp, callState := .ringing }
  else s

/-- Python `HexChatBackend.receive_msg_update` restricted to the session fields:
accept/reject validate the sender against `target_ip`, cancel against
`incoming_call_ip`, disconnect against `target_ip`; accept and reject act
only in `Calling`, cancel only in `Ringing`, disconnect only when
connected; every other message is ordinary chat text and leaves the
session fields unchanged. -/
def receive_msg_update (s : BackendState) (message : String)
    (senderIp : Option String) : BackendState :=
  if message = CMD_CALL_ACCEPT then
    if senderMismatch senderIp s.targetIp then s
    else if s.callState = .calling then
      { s with callState := .connected, isConnected := true }
    else s
  else if message = CMD_CALL_REJECT then
    if senderMismatch senderIp s.targetIp then s
    else if s.callState = .calling then
      { s with callState := .idle, targetIp := none }
    else s
  else if message = CMD_CALL_CANCEL then
    if senderMismatch senderIp s.incomingCallIp then s
    else if s.callState = .ringing then
      { s with callState := .idle, incomingCallIp := none }
    else s
  else if message = CMD_DISCONNECT then
    if senderMismatch senderIp s.targetIp then s
    else if s.isConnected then
      { s with isConnected := false, callState := .idle }
    else s
  else s

/-- Python `receive_msg_update` of the legacy ui.py (lines 1134-1250): no sender
parameter, hence no sender validation at all; accept/reject act in
`Calling`, cancel in `Ringing`, disconnect when connected; a call request
is a no-op here (handled by the incoming-call callback instead). -/
def ui_receive_msg_update (s : BackendState) (message : String) : BackendState :=
  if message = CMD_CALL_REQUEST then s
  else if message = CMD_CALL_ACCEPT then
    if s.callState = .calling then
      { s with callState := .connected, isConnected := true }
    else s
  else if message = CMD_CALL_REJECT then
    if s.callState = .calling then { s with callState := .idle } else s
  else if message = CMD_CALL_CANCEL then
    if s.callState = .ringing then
      { s with callState := .idle, incomingCallIp := none }
    else s
  else if message = CMD_DISCONNECT then
    if s.isConnected then
      { s with isConnected := false, callState := .idle }
    else s
  else s

/-- Python `receive_msg_update_with_sender` of ui.py: sound-effect messages are
handled separately; the five protocol commands are delegated to
`receive_msg_update`, discarding the sender address; ordinary text adopts
the sender as target when no target is set. -/
def ui_receive_msg_update_with_sender (s : BackendState) (message : String)
    (senderIp : String) : BackendState :=
  if "__SOUND__".data.isPrefixOf message.data && "__".data.isSuffixOf message.data then s
  else if message = CMD_CALL_REQUEST ∨ message = CMD_CALL_ACCEPT ∨
      message = CMD_CALL_REJECT ∨ message = CMD_CALL_CANCEL ∨
      message = CMD_DISCONNECT then
    ui_receive_msg_update s message
  else if truthyStr s.targetIp then s
  else { s with targetIp := some senderIp }

/-! ### DSP filter chain (audio_filter.py, constants from audio_config.py)

Frames are byte buffers; `np.frombuffer(..., dtype=np.int16)` parses pairs
of bytes as little-endian signed 16-bit samples and fails on odd length —
the one internal failure reachable from a byte buffer, caught by each
stage's `except` clause.  float32/float64 arithmetic is modelled exactly:
by `Rat` in stages that use only field operations and by `Real`/`Complex`
in stages that use sqrt, exp, sin/cos, powers or FFTs. -/

/-- audio_config.py constants used by the filters.  `COMPRESSOR_RATIO` is
renamed `compressorRatio` here for lexical reasons only. -/
def RATE : ℚ := 16000

def HIGH_PASS_CUTOFF : ℚ := 80

def LOW_PASS_CUTOFF : ℚ := 8000

def NOISE_GATE_THRESHOLD : ℝ := 200

def NOISE_GATE_ATTACK : ℝ := 0.005

def NOISE_GATE_RELEASE : ℝ := 0.05

def SPECTRAL_SUBTRACT_ALPHA : ℝ := 0.7

def NOISE_LEARNING_FRAMES : ℕ := 20

def COMPRESSOR_THRESHOLD : ℝ := 1500

def compressorRatio : ℝ := 6.0

def COMPRESSOR_ATTACK : ℝ := 0.003

def COMPRESSOR_RELEASE : ℝ := 0.03

def LIMITER_THRESHOLD : ℚ := 28000

def EQ_LOW_GAIN : ℝ := 0.0

def EQ_MID_GAIN : ℝ := 0.0

def EQ_HIGH_GAIN : ℝ := 0.0

def NOTCH_FREQUENCY : ℝ := 60

def NOTCH_Q : ℝ := 10

def GAIN_DB : ℝ := 0.0

/-- Numpy `np.frombuffer(audio_bytes, dtype=np.int16)`: bytes (values < 256) are
paired little-endian into signed 16-bit samples; an odd-length buffer makes
numpy raise, modelled by `none`. -/
def parseInt16 : List Nat → Option (List Int)
  | [] => some []
  | [_] => none
  | b0 :: b1 :: rest =>
    (parseInt16 rest).map (fun ss =>
      (if b0 + 256 * b1 < 32768 then ((b0 + 256 * b1 : Nat) : Int)
       else ((b0 + 256 * b1 : Nat) : Int) - 65536) :: ss)

/-- Python `.tobytes()` on an int16 array: each sample contributes its two bytes
little-endian (two's complement). -/
def toBytes : List Int → List Nat
  | [] => []
  | s :: ss => (s % 65536).toNat % 256 :: (s % 65536).toNat / 256 :: toBytes ss

/-- Truncation toward zero, the rounding of `.astype(np.int16)` on a float
array (C cast semantics). -/
def truncQ (q : ℚ) : Int := if 0 ≤ q then ⌊q⌋ else ⌈q⌉

/-- Truncation toward zero for the `Real`-valued stages. -/
noncomputable def truncR (x : ℝ) : Int := if 0 ≤ x then ⌊x⌋ else ⌈x⌉

/-- Numpy `np.clip(x, -32768, 32767).astype(np.int16)` on one sample. -/
def npClipCast (q : ℚ) : Int := truncQ (max (-32768) (min q 32767))

/-- Numpy `np.clip(x, -32768, 32767).astype(np.int16)` on one `Real` sample. -/
noncomputable def npClipCastR (x : ℝ) : Int := truncR (max (-32768) (min x 32767))

/-- Sum of squares, `np.sum(samples ** 2)` over the listed samples. -/
def listSumSq (l : List ℝ) : ℝ := (l.map (fun v => v ^ 2)).sum

/-- Numpy `np.sqrt(np.mean(samples ** 2))` of a frame of parsed samples.  For an
empty frame numpy yields NaN; here division by zero yields `Real.sqrt 0`,
and every use guards the empty frame explicitly to keep the NaN-driven
branching of numpy (any comparison with NaN is false). -/
noncomputable def frameRms (samples : List Int) : ℝ :=
  Real.sqrt (listSumSq (samples.map (fun (s : Int) => (s : ℝ))) / samples.length)

/-- The module-level mutable filter state of audio_filter.py
(`_HP_FILTER_STATE`, `_LP_FILTER_STATE`, `_GATE_ENVELOPE`,
`_COMPRESSOR_ENVELOPE`, `_NOTCH_FILTER_STATE_1/2`, `_NOISE_PROFILE`,
`_LEARNING_FRAME_COUNT`), threaded explicitly. -/
structure FilterState where
  hpState : ℚ
  lpState : ℚ
  gateEnvelope : ℝ
  compressorEnvelope : ℝ
  notchState1 : ℚ
  notchState2 : ℚ
  noiseProfile : Option (List ℝ)
  learningFrameCount : ℕ

/-- The initial state, as set at module load and by `reset_all_filters`. -/
noncomputable def initialFilterState : FilterState :=
  ⟨0, 0, 0, 0, 0, 0, none, 0⟩

/-- Recursive tail of the high-pass loop:
`filtered[i] = alpha * (filtered[i-1] + samples[i] - samples[i-1])`. -/
def hpAux (alpha prevF prevS : ℚ) : List ℚ → List ℚ
  | [] => []
  | s :: rest => alpha * (prevF + s - prevS) :: hpAux alpha (alpha * (prevF + s - prevS)) s rest

/-- The high-pass loop of `apply_high_pass_filter`:
`filtered[0] = alpha * samples[0]`, then the recursion of `hpAux`. -/
def hpFilter (alpha : ℚ) : List ℚ → List ℚ
  | [] => []
  | s :: rest => alpha * s :: hpAux alpha (alpha * s) s rest

/-- Recursive tail of the low-pass loop:
`filtered[i] = alpha * samples[i] + (1 - alpha) * filtered[i-1]`. -/
def lpAux (alpha prevF : ℚ) : List ℚ → List ℚ
  | [] => []
  | s :: rest => (alpha * s + (1 - alpha) * prevF) :: lpAux alpha (alpha * s + (1 - alpha) * prevF) rest

/-- The low-pass loop of `apply_low_pass_filter`: for `i = 0` the previous
output is seeded with the sample itself. -/
def lpFilter (alpha : ℚ) : List ℚ → List ℚ
  | [] => []
  | s :: rest => (alpha * s + (1 - alpha) * s) :: lpAux alpha (alpha * s + (1 - alpha) * s) rest

/-- Python `apply_high_pass_filter`: first-order recursive filter with
`alpha = cn / (cn + 1)`, `cn = HIGH_PASS_CUTOFF / RATE`; output clipped and
cast back to int16.  The declared global `_HP_FILTER_STATE` is neither read
nor written by the source, so the state passes through unchanged. -/
def apply_high_pass_filter (st : FilterState) (audio_bytes : List Nat) :
    List Nat × FilterState :=
  match parseInt16 audio_bytes with
  | none => (audio_bytes, st)
  | some samples =>
    let cn := HIGH_PASS_CUTOFF / RATE
    let alpha := cn / (cn + 1)
    (toBytes ((hpFilter alpha (samples.map (fun (s : Int) => (s : ℚ)))).map npClipCast), st)

/-- Python `apply_low_pass_filter`: first-order recursive filter with
`alpha = cn / (cn + 1)`, `cn = LOW_PASS_CUTOFF / RATE`.  The declared
global `_LP_FILTER_STATE` is neither read nor written by the source. -/
def apply_low_pass_filter (st : FilterState) (audio_bytes : List Nat) :
    List Nat × FilterState :=
  match parseInt16 audio_bytes with
  | none => (audio_bytes, st)
  | some samples =>
    let cn := LOW_PASS_CUTOFF / RATE
    let alpha := cn / (cn + 1)
    (toBytes ((lpFilter alpha (samples.map (fun (s : Int) => (s : ℚ)))).map npClipCast), st)

/-- Python `apply_noise_gate`: attack/release envelope follower on the frame RMS;
when the envelope is below the threshold the whole frame is zeroed,
otherwise the input bytes pass through.  (For an empty frame the source's
NaN RMS disables both the comparison and any later gating; no claim
touches the empty-frame envelope, which here becomes 0 instead of NaN.) -/
noncomputable def apply_noise_gate (st : FilterState) (audio_bytes : List Nat) :
    List Nat × FilterState :=
  match parseInt16 audio_bytes with
  | none => (audio_bytes, st)
  | some samples =>
    let rms := frameRms samples
    let attackCoeff := 1 - Real.exp (-2 / (NOISE_GATE_ATTACK * (RATE : ℝ)))
    let releaseCoeff := 1 - Real.exp (-2 / (NOISE_GATE_RELEASE * (RATE : ℝ)))
    let env :=
      if st.gateEnvelope < rms then st.gateEnvelope + attackCoeff * (rms - st.gateEnvelope)
      else st.gateEnvelope + releaseCoeff * (rms - st.gateEnvelope)
    let st' := { st with gateEnvelope := env }
    if env < NOISE_GATE_THRESHOLD then
      (toBytes (List.replicate samples.length 0), st')
    else (audio_bytes, st')

/-- Numpy `np.fft.rfft`: the first `n / 2 + 1` bins of the discrete Fourier
transform `X k = sum_j x j * exp (-2 pi i j k / n)`. -/
noncomputable def rfft (x : List ℝ) : List ℂ :=
  (List.range (x.length / 2 + 1)).map (fun (k : ℕ) =>
    ∑ j ∈ Finset.range x.length,
      ((x.getD j 0 : ℝ) : ℂ) *
        Complex.exp (-(2 * Real.pi * Complex.I * (j : ℂ) * (k : ℂ)) / (x.length : ℂ)))

/-- Numpy `np.fft.irfft(X, n)`: rebuild the Hermitian full spectrum from the half
spectrum (zero-padded or truncated to `n / 2 + 1` entries) and return the
real part of the inverse DFT. -/
noncomputable def irfft (X : List ℂ) (n : ℕ) : List ℝ :=
  (List.range n).map (fun (j : ℕ) =>
    ((1 / (n : ℂ)) *
      ∑ k ∈ Finset.range n,
        (if k ≤ n / 2 then X.getD k 0 else (starRingEnd ℂ) (X.getD (n - k) 0)) *
          Complex.exp ((2 * Real.pi * Complex.I * (j : ℂ) * (k : ℂ)) / (n : ℂ))).re)

/-- Python `apply_spectral_subtraction`: while fewer than `NOISE_LEARNING_FRAMES`
quiet frames (RMS below the gate threshold) have been seen, accumulate the
exponentially smoothed magnitude spectrum (0.9 old / 0.1 new) and return
the frame unchanged; otherwise, if a noise profile exists, subtract
`alpha * profile` from the magnitude (floored at 5% of the original
magnitude), reconstruct with the original phase (`mag * exp(i * angle)`,
which is `mag * z / |z|`, and `mag` itself at `z = 0` since
`np.angle 0 = 0`), and inverse-transform.  The `samples ≠ []` conjunct
reflects numpy's NaN RMS on an empty frame (a NaN comparison is false);
the length guards reflect numpy shape errors swallowed by the `except`
clause — note the learning counter is incremented before the smoothing
can fail, so that increment survives the swallowed exception. -/
noncomputable def apply_spectral_subtraction (st : FilterState)
    (audio_bytes : List Nat) : List Nat × FilterState :=
  match parseInt16 audio_bytes with
  | none => (audio_bytes, st)
  | some samples =>
    let x : List ℝ := samples.map (fun (s : Int) => (s : ℝ))
    if st.learningFrameCount < NOISE_LEARNING_FRAMES ∧ samples ≠ [] ∧
        frameRms samples < NOISE_GATE_THRESHOLD then
      let fftMag := (rfft x).map Complex.abs
      match st.noiseProfile with
      | none =>
        (audio_bytes,
          { st with noiseProfile := some fftMag,
                    learningFrameCount := st.learningFrameCount + 1 })
      | some p =>
        if p.length = fftMag.length then
          (audio_bytes,
            { st with
                noiseProfile :=
                  some (List.zipWith (fun a b => 0.9 * a + 0.1 * b) p fftMag),
                learningFrameCount := st.learningFrameCount + 1 })
        else
          (audio_bytes, { st with learningFrameCount := st.learningFrameCount + 1 })
    else
      match st.noiseProfile with
      | some p =>
        if p ≠ [] then
          if samples ≠ [] then
            let X := rfft x
            let mag := X.map Complex.abs
            if mag.length ≤ p.length then
              let magReduced :=
                List.zipWith
                  (fun m q => max (m - SPECTRAL_SUBTRACT_ALPHA * q) (0.05 * m))
                  mag (p.take mag.length)
              let Xnew :=
                List.zipWith
                  (fun m z => if z = 0 then ((m : ℝ) : ℂ)
                    else ((m : ℝ) : ℂ) * (z / ((Complex.abs z : ℝ) : ℂ)))
                  magReduced X
              (toBytes ((irfft Xnew samples.length).map npClipCastR), st)
            else (audio_bytes, st)
          else (audio_bytes, st)
        else (audio_bytes, st)
      | none => (audio_bytes, st)

/-- Python `apply_compressor`: attack/release RMS envelope; above the threshold
the gain `1 / (1 + (ratio - 1) * excess / threshold)` is applied to the
whole frame, then clip and cast. -/
noncomputable def apply_compressor (st : FilterState) (audio_bytes : List Nat) :
    List Nat × FilterState :=
  match parseInt16 audio_bytes with
  | none => (audio_bytes, st)
  | some samples =>
    let rms := frameRms samples
    let attackCoeff := 1 - Real.exp (-2 / (COMPRESSOR_ATTACK * (RATE : ℝ)))
    let releaseCoeff := 1 - Real.exp (-2 / (COMPRESSOR_RELEASE * (RATE : ℝ)))
    let env :=
      if st.compressorEnvelope < rms then
        st.compressorEnvelope + attackCoeff * (rms - st.compressorEnvelope)
      else st.compressorEnvelope + releaseCoeff * (rms - st.compressorEnvelope)
    let gainReduction :=
      if COMPRESSOR_THRESHOLD < env then
        1 / (1 + (compressorRatio - 1) * ((env - COMPRESSOR_THRESHOLD) / COMPRESSOR_THRESHOLD))
      else 1
    (toBytes ((samples.map (fun (s : Int) => (s : ℝ) * gainReduction)).map npClipCastR),
      { st with compressorEnvelope := env })

/-- The peak `np.max(np.abs(samples))` over the rational samples; the fold
seed 0 is below every absolute value, so this equals numpy's max on any
nonempty frame (numpy raises on an empty one, guarded at the call site). -/
def maxAbsQ (x : List ℚ) : ℚ := (x.map (fun v => |v|)).foldr max 0

/-- The scaling step of `apply_limiter` on the float samples: above the
threshold every sample is scaled by `threshold / peak`. -/
def limiterSamples (x : List ℚ) : List ℚ :=
  if LIMITER_THRESHOLD < maxAbsQ x then
    x.map (fun v => v * (LIMITER_THRESHOLD / maxAbsQ x))
  else x

/-- Python `apply_limiter`: peak-detect, scale proportionally when the peak
exceeds the threshold, clip and cast back.  `np.max` raises on an empty
frame; the `except` clause then returns the input unchanged. -/
def apply_limiter (audio_bytes : List Nat) : List Nat :=
  match parseInt16 audio_bytes with
  | none => audio_bytes
  | some samples =>
    if samples = [] then audio_bytes
    else toBytes ((limiterSamples (samples.map (fun (s : Int) => (s : ℚ)))).map npClipCast)

/-- Python `10 ** (db / 20.0)`, the dB-to-linear conversion of the EQ and gain
stages. -/
noncomputable def dbToLinear (db : ℝ) : ℝ := (10 : ℝ) ^ (db / 20)

/-- Python `apply_simple_lowpass_array` of audio_filter.py. -/
noncomputable def lowpassArrayAux (alpha prevF : ℝ) : List ℝ → List ℝ
  | [] => []
  | s :: rest =>
    (alpha * s + (1 - alpha) * prevF) :: lowpassArrayAux alpha (alpha * s + (1 - alpha) * prevF) rest

/-- Python `apply_simple_lowpass_array`: seeded with the first sample. -/
noncomputable def apply_simple_lowpass_array (alpha : ℝ) : List ℝ → List ℝ
  | [] => []
  | s :: rest =>
    (alpha * s + (1 - alpha) * s) :: lowpassArrayAux alpha (alpha * s + (1 - alpha) * s) rest

/-- Python `apply_simple_highpass_array` of audio_filter.py. -/
noncomputable def highpassArrayAux (alpha prevF prevS : ℝ) : List ℝ → List ℝ
  | [] => []
  | s :: rest =>
    alpha * (prevF + s - prevS) :: highpassArrayAux alpha (alpha * (prevF + s - prevS)) s rest

/-- Python `apply_simple_highpass_array`: `filtered[0] = alpha * samples[0]`. -/
noncomputable def apply_simple_highpass_array (alpha : ℝ) : List ℝ → List ℝ
  | [] => []
  | s :: rest => alpha * s :: highpassArrayAux alpha (alpha * s) s rest

/-- Python `apply_simple_low_shelf`: blend the frame with its low-passed version,
weights `(1 - gain)` and `gain`. -/
noncomputable def apply_simple_low_shelf (samples : List ℝ) (shelfFreq gain : ℝ) : List ℝ :=
  let cn := shelfFreq / (RATE : ℝ)
  let alpha := cn / (cn + 1)
  List.zipWith (fun s f => s * (1 - gain) + f * gain) samples
    (apply_simple_lowpass_array alpha samples)

/-- Python `apply_simple_high_shelf`: blend the frame with its high-passed
version. -/
noncomputable def apply_simple_high_shelf (samples : List ℝ) (shelfFreq gain : ℝ) : List ℝ :=
  let cn := shelfFreq / (RATE : ℝ)
  let alpha := cn / (cn + 1)
  List.zipWith (fun s f => s * (1 - gain) + f * gain) samples
    (apply_simple_highpass_array alpha samples)

/-- Python `apply_3band_eq`: low shelf below 300 Hz, high shelf above 3000 Hz and
a flat mid gain, each applied only when its configured dB gain is
nonzero. -/
noncomputable def apply_3band_eq (audio_bytes : List Nat) : List Nat :=
  match parseInt16 audio_bytes with
  | none => audio_bytes
  | some samples =>
    let x0 : List ℝ := samples.map (fun (s : Int) => (s : ℝ))
    let x1 := if EQ_LOW_GAIN ≠ 0 then apply_simple_low_shelf x0 300 (dbToLinear EQ_LOW_GAIN) else x0
    let x2 := if EQ_HIGH_GAIN ≠ 0 then apply_simple_high_shelf x1 3000 (dbToLinear EQ_HIGH_GAIN) else x1
    let x3 := if EQ_MID_GAIN ≠ 0 then x2.map (fun s => s * dbToLinear EQ_MID_GAIN) else x2
    toBytes (x3.map npClipCastR)

/-- The biquad loop of `apply_notch_filter`, with its two feedback cells —
local variables `state_1`, `state_2` in the source, freshly zeroed on
every call. -/
noncomputable def notchLoop (b0 b1 b2 a1 a2 s1 s2 : ℝ) : List ℝ → List ℝ
  | [] => []
  | x :: rest =>
    (b0 * x + s1) ::
      notchLoop b0 b1 b2 a1 a2 (b1 * x - a1 * (b0 * x + s1) + s2)
        (b2 * x - a2 * (b0 * x + s1)) rest

/-- Python `apply_notch_filter`: second-order IIR notch at `NOTCH_FREQUENCY` with
quality `NOTCH_Q`, coefficients normalized by `a0`.  The declared globals
`_NOTCH_FILTER_STATE_1/2` are shadowed by the zero-initialized locals, so
the threaded state passes through unchanged. -/
noncomputable def apply_notch_filter (st : FilterState) (audio_bytes : List Nat) :
    List Nat × FilterState :=
  match parseInt16 audio_bytes with
  | none => (audio_bytes, st)
  | some samples =>
    let w0 := 2 * Real.pi * NOTCH_FREQUENCY / (RATE : ℝ)
    let alpha := Real.sin w0 / (2 * NOTCH_Q)
    let a0 := 1 + alpha
    let b0 := 1 / a0
    let b1 := -2 * Real.cos w0 / a0
    let b2 := 1 / a0
    let a1 := -2 * Real.cos w0 / a0
    let a2 := (1 - alpha) / a0
    (toBytes
      ((notchLoop b0 b1 b2 a1 a2 0 0 (samples.map (fun (s : Int) => (s : ℝ)))).map npClipCastR),
      st)

/-- Python `apply_gain`: flat multiplication by `10 ** (GAIN_DB / 20)`. -/
noncomputable def apply_gain (audio_bytes : List Nat) : List Nat :=
  match parseInt16 audio_bytes with
  | none => audio_bytes
  | some samples =>
    toBytes ((samples.map (fun (s : Int) => (s : ℝ) * dbToLinear GAIN_DB)).map npClipCastR)

/-- The `FILTER_ENABLED` dict: one enable flag per stage. -/
structure FilterEnabled where
  high_pass : Bool
  low_pass : Bool
  noise_gate : Bool
  spectral_subtraction : Bool
  compressor : Bool
  limiter : Bool
  eq_3band : Bool
  notch : Bool
  gain : Bool

/-- Python `apply_all_enabled_filters`: the fixed chain order of audio_filter.py —
noise gate, spectral subtraction, high-pass, low-pass, notch, EQ,
compressor, limiter, gain — each stage run only when enabled. -/
noncomputable def apply_all_enabled_filters (cfg : FilterEnabled)
    (st : FilterState) (audio_bytes : List Nat) : List Nat × FilterState :=
  let r1 := if cfg.noise_gate then apply_noise_gate st audio_bytes else (audio_bytes, st)
  let r2 := if cfg.spectral_subtraction then apply_spectral_subtraction r1.2 r1.1 else r1
  let r3 := if cfg.high_pass then apply_high_pass_filter r2.2 r2.1 else r2
  let r4 := if cfg.low_pass then apply_low_pass_filter r3.2 r3.1 else r3
  let r5 := if cfg.notch then apply_notch_filter r4.2 r4.1 else r4
  let r6 := if cfg.eq_3band then (apply_3band_eq r5.1, r5.2) else r5
  let r7 := if cfg.compressor then apply_compressor r6.2 r6.1 else r6
  let r8 := if cfg.limiter then (apply_limiter r7.1, r7.2) else r7
  if cfg.gain then (apply_gain r8.1, r8.2) else r8

/-- The integer peak `np.max(np.abs(samples))` of a frame of int16
samples (exact, since int16 values are exactly representable). -/
def peakAbs (samples : List Int) : ℤ := (samples.map (fun s => |s|)).foldr max 0

/-! ### Theorems -/

/-- On a queue of audio-tagged datagrams fitting the drain bound, the drain
loop consumes the whole queue and keeps the payload of the last datagram. -/
theorem drainLoop_all_audio (q : List Datagram) (latest : List Nat) (drained : Nat)
    (haudio : ∀ d ∈ q, d.bytes ≠ [] ∧ d.bytes.head? = some 0)
    (hlen : drained + q.length ≤ 5) :
    drainLoop latest drained q =
      ((q.map (fun d => d.bytes.tail)).getLastD latest, drained + q.length, []) := by
  induction q generalizing latest drained with
  | nil => simp [drainLoop]
  | cons p q ih =>
    have hp := haudio p (List.mem_cons_self p q)
    have hlt : drained < 5 := by
      have := hlen
      simp only [List.length_cons] at this
      omega
    have hstep : drainStep latest p.bytes = p.bytes.tail := by
      simp [drainStep, hp.1, hp.2]
    have hrest : ∀ d ∈ q, d.bytes ≠ [] ∧ d.bytes.head? = some 0 :=
      fun d hd => haudio d (List.mem_cons_of_mem p hd)
    have hlen' : drained + 1 + q.length ≤ 5 := by
      simp only [List.length_cons] at hlen
      omega
    have harith : drained + 1 + q.length = drained + (q.length + 1) := by omega
    simp only [drainLoop, if_pos hlt, hstep, ih _ _ hrest hlen', List.map_cons,
      List.getLastD_cons, List.length_cons, harith]

/-- The last element of a mapped nonempty list, as a `getLastD` over the
mapped tail with the mapped head as default. -/
theorem map_getLastD {α β : Type} (f : α → β) (d : α) (q : List α) :
    (q.map f).getLastD (f d) = f ((d :: q).getLast (List.cons_ne_nil d q)) := by
  induction q generalizing d with
  | nil => simp
  | cons e q ih =>
    simp only [List.map_cons, List.getLastD_cons, ih e]
    exact congrArg f ((List.getLast_cons (List.cons_ne_nil e q)).symm)

/-- C1 (counterexample): a burst of one audio datagram followed by one text
datagram.  The cycle emits no signaling event (the text datagram is dropped
from dispatch) and writes the raw text datagram bytes `[1, 65]` — tag byte
included — to the playback device instead of the freshest audio payload
`[7]`; this contradicts the claim that every interleaved text datagram is
dispatched, none dropped and none played as audio. -/
theorem C1_drain_text_counterexample :
    receiveCycle false [⟨[0, 7], "a"⟩, ⟨[1, 65], "b"⟩] =
      ⟨[], some [1, 65], 1, []⟩ := by decide

/-- C1 (amended): for a burst of K audio-tagged datagrams, 1 ≤ K ≤ 6
(one read plus at most 5 drained), queued before one receive cycle, exactly
one frame is written to playback and it is the payload of the most recently
enqueued datagram — discarded instead of played when the session is
deafened; no signaling event is emitted and the queue is fully consumed.
Text datagrams interleaved after the first position would be treated as
audio, hence the all-audio hypothesis. -/
theorem C1_receiver_drain_amended (deafened : Bool) (q : List Datagram)
    (hne : q ≠ []) (hlen : q.length ≤ 6)
    (haudio : ∀ d ∈ q, d.bytes ≠ [] ∧ d.bytes.head? = some 0) :
    (receiveCycle deafened q).events = [] ∧
    (receiveCycle deafened q).rest = [] ∧
    (receiveCycle deafened q).played =
      (if deafened then none else some ((q.getLast hne).bytes.tail)) := by
  match q with
  | d :: q' =>
    have hd := haudio d (List.mem_cons_self d q')
    have hrest : ∀ e ∈ q', e.bytes ≠ [] ∧ e.bytes.head? = some 0 :=
      fun e he => haudio e (List.mem_cons_of_mem d he)
    have hlen' : 0 + q'.length ≤ 5 := by
      simp only [List.length_cons] at hlen
      omega
    have hne1 : ¬ d.bytes.head? = some 1 := by
      rw [hd.2]
      decide
    have hdrain := drainLoop_all_audio q' d.bytes.tail 0 hrest hlen'
    simp only [receiveCycle, if_neg hd.1, if_neg hne1, if_pos hd.2, hdrain,
      map_getLastD]
    simp

/-- C1 (witness for the amended theorem): a concrete burst of two audio
datagrams; the second payload `[2]` is played, nothing is dispatched. -/
theorem C1_receiver_drain_amended_witness :
    (receiveCycle false [⟨[0, 1], "x"⟩, ⟨[0, 2], "y"⟩]).events = [] ∧
    (receiveCycle false [⟨[0, 1], "x"⟩, ⟨[0, 2], "y"⟩]).rest = [] ∧
    (receiveCycle false [⟨[0, 1], "x"⟩, ⟨[0, 2], "y"⟩]).played = some [2] := by
  have h := C1_receiver_drain_amended false [⟨[0, 1], "x"⟩, ⟨[0, 2], "y"⟩]
    (by decide) (by decide) (by decide)
  exact ⟨h.1, h.2.1, by rw [h.2.2]; rfl⟩

/-- C4 (counterexample): a TEXT datagram whose payload `[255]` is not valid
UTF-8 is silently dropped — no event is dispatched — contradicting the claim
that every TEXT datagram is dispatched regardless of its content. -/
theorem C4_text_decode_counterexample :
    receiveCycle false [⟨[1, 255], "s"⟩] = ⟨[], none, 0, []⟩ := by decide

/-- C4 (amended): a TEXT datagram received as the first packet of a receive
cycle whose payload decodes as UTF-8 is dispatched: a call-request message
goes to the incoming-call callback together with the sender's address, any
other message goes to the text callback (message only); nothing is played
for it.  Payloads that fail UTF-8 decoding are silently dropped. -/
theorem C4_text_dispatch_amended (deafened : Bool) (d : Datagram)
    (q : List Datagram) (msg : List Nat)
    (hhead : d.bytes.head? = some 1) (hdec : utf8Decode d.bytes.tail = some msg) :
    (receiveCycle deafened (d :: q)).events =
      [if msg = callRequestCodes then .incomingCall msg d.addr
       else .textMessage msg] ∧
    (receiveCycle deafened (d :: q)).played = none ∧
    (receiveCycle deafened (d :: q)).rest = q := by
  have hne : d.bytes ≠ [] := by
    intro h
    rw [h] at hhead
    exact Option.noConfusion hhead
  simp only [receiveCycle, if_neg hne, if_pos hhead, hdec]
  by_cases hmsg : msg = callRequestCodes
  · simp [hmsg]
  · simp [hmsg]

/-- C4 (witness for the amended theorem): the TEXT datagram with payload
"Hi" from 1.2.3.4 is dispatched to the text callback as code points
`[72, 105]`. -/
theorem C4_text_dispatch_amended_witness :
    (receiveCycle false [⟨[1, 72, 105], "1.2.3.4"⟩]).events =
      [RecvEvent.textMessage [72, 105]] ∧
    (receiveCycle false [⟨[1, 72, 105], "1.2.3.4"⟩]).played = none ∧
    (receiveCycle false [⟨[1, 72, 105], "1.2.3.4"⟩]).rest = [] := by
  have h := C4_text_dispatch_amended false ⟨[1, 72, 105], "1.2.3.4"⟩ []
    [72, 105] (by decide) (by decide)
  exact ⟨by rw [h.1]; decide, h.2.1, h.2.2⟩

/-- C10: a datagram whose first byte is neither the audio tag 0 nor the
text tag 1 is treated entirely as audio: the whole datagram, unrecognized
first byte included, is written to the playback device, and nothing is
dispatched to the signaling layer. -/
theorem C10_unknown_tag_as_audio (d : Datagram) (b : Nat)
    (hhead : d.bytes.head? = some b) (h0 : b ≠ 0) (h1 : b ≠ 1) :
    (receiveCycle false [d]).played = some d.bytes ∧
    (receiveCycle false [d]).events = [] := by
  have hne : d.bytes ≠ [] := by
    intro h
    rw [h] at hhead
    exact Option.noConfusion hhead
  have hne1 : ¬ d.bytes.head? = some 1 := by
    rw [hhead]
    intro h
    exact h1 (Option.some.inj h)
  have hne0 : ¬ d.bytes.head? = some 0 := by
    rw [hhead]
    intro h
    exact h0 (Option.some.inj h)
  simp only [receiveCycle, if_neg hne, if_neg hne1, if_neg hne0, drainLoop]
  simp

/-- C10 (witness): the datagram `[2, 5]` is played whole. -/
theorem C10_unknown_tag_as_audio_witness :
    (receiveCycle false [⟨[2, 5], "z"⟩]).played = some [2, 5] ∧
    (receiveCycle false [⟨[2, 5], "z"⟩]).events = [] :=
  C10_unknown_tag_as_audio ⟨[2, 5], "z"⟩ 2 (by decide) (by decide) (by decide)

/-- C2 (counterexample): a call request arriving while the session is Idle
and whose caller address equals the local address transitions to Ringing,
not to Connected: the mutual/self auto-accept requires the session to be
in Calling, so the claimed Idle-state exception does not exist. -/
theorem C2_idle_self_request_counterexample :
    show_incoming_call "10.0.0.5" ⟨.idle, none, none, false⟩
        CMD_CALL_REQUEST "10.0.0.5" =
      ⟨.ringing, none, some "10.0.0.5", false⟩ := by decide

/-- C2 (amended): a call request received while Idle always transitions to
Ringing, recording the caller — even when the caller address equals the
local address; the auto-accept applies only while the session is Calling:
a request whose caller equals the called address transitions directly to
Connected without an explicit accept, so two peers each Calling the other
both reach Connected on receiving each other's request. -/
theorem C2_request_transitions_amended :
    (∀ (localIp : String) (s : BackendState) (callerIp : String),
      s.callState = .idle →
      show_incoming_call localIp s CMD_CALL_REQUEST callerIp =
        { s with incomingCallIp := some callerIp, callState := .ringing }) ∧
    (∀ (localA localB : String) (sA sB : BackendState) (aIp bIp : String),
      sA.callState = .calling → sA.targetIp = some bIp →
      sB.callState = .calling → sB.targetIp = some aIp →
      (show_incoming_call localA sA CMD_CALL_REQUEST bIp).callState = .connected ∧
      (show_incoming_call localA sA CMD_CALL_REQUEST bIp).isConnected = true ∧
      (show_incoming_call localB sB CMD_CALL_REQUEST aIp).callState = .connected ∧
      (show_incoming_call localB sB CMD_CALL_REQUEST aIp).isConnected = true) := by
  constructor
  · intro localIp s callerIp hidle
    have hmut : is_mutual_call localIp s callerIp = false := by
      simp [is_mutual_call, hidle]
    simp [show_incoming_call, hmut]
  · intro localA localB sA sB aIp bIp hA hAt hB hBt
    have hmutA : is_mutual_call localA sA bIp = true := by
      simp [is_mutual_call, hA, hAt]
    have hmutB : is_mutual_call localB sB aIp = true := by
      simp [is_mutual_call, hB, hBt]
    simp [show_incoming_call, hmutA, hmutB]

/-- C2 (witness for the amended theorem): with local address 9.9.9.9, an
Idle session receiving a request from 9.9.9.9 rings; a session Calling
8.8.8.8 receiving a request from 8.8.8.8 auto-connects. -/
theorem C2_request_transitions_amended_witness :
    show_incoming_call "9.9.9.9" ⟨.idle, none, none, false⟩
        CMD_CALL_REQUEST "9.9.9.9" =
      ⟨.ringing, none, some "9.9.9.9", false⟩ ∧
    (show_incoming_call "9.9.9.9" ⟨.calling, some "8.8.8.8", none, false⟩
        CMD_CALL_REQUEST "8.8.8.8").callState = .connected := by
  have h := C2_request_transitions_amended
  refine ⟨h.1 "9.9.9.9" ⟨.idle, none, none, false⟩ "9.9.9.9" rfl, ?_⟩
  exact (h.2 "9.9.9.9" "7.7.7.7" ⟨.calling, some "8.8.8.8", none, false⟩
    ⟨.calling, some "9.9.9.9", none, false⟩ "9.9.9.9" "8.8.8.8"
    rfl rfl rfl rfl).1

/-- C3 (counterexample): the legacy ui.py handler — one of the two cited
implementations — performs no sender validation: while Calling 1.2.3.4, an
accept whose sender is 9.9.9.9 still transitions the session to Connected,
contradicting the claim that it causes no state transition. -/
theorem C3_accept_no_validation_counterexample :
    ui_receive_msg_update_with_sender ⟨.calling, some "1.2.3.4", none, false⟩
        CMD_CALL_ACCEPT "9.9.9.9" =
      ⟨.connected, some "1.2.3.4", none, true⟩ := by decide

/-- C3 (amended): in the flet backend, an accept received while Calling
whose (nonempty) sender address differs from the (nonempty) address being
called causes no state transition, and an accept, reject or cancel
received while Idle causes no transition; the same Idle guarantee holds
for the legacy ui.py handler, which however performs no sender validation
at all, so while Calling it honors an accept from any sender. -/
theorem C3_signaling_guards_amended :
    (∀ (s : BackendState) (a t : String),
      s.callState = .calling → s.targetIp = some t →
      t ≠ "" → a ≠ "" → a ≠ t →
      receive_msg_update s CMD_CALL_ACCEPT (some a) = s) ∧
    (∀ (s : BackendState) (m : String) (senderIp : Option String),
      s.callState = .idle →
      m = CMD_CALL_ACCEPT ∨ m = CMD_CALL_REJECT ∨ m = CMD_CALL_CANCEL →
      receive_msg_update s m senderIp = s) ∧
    (∀ (s : BackendState) (m : String),
      s.callState = .idle →
      m = CMD_CALL_ACCEPT ∨ m = CMD_CALL_REJECT ∨ m = CMD_CALL_CANCEL →
      ui_receive_msg_update s m = s) := by
  refine ⟨?_, ?_, ?_⟩
  · intro s a t hcall ht hne1 hne2 hne3
    have hmm : senderMismatch (some a) s.targetIp = true := by
      rw [ht]
      simp [senderMismatch, hne1, hne2, hne3]
    simp [receive_msg_update, hmm]
  · intro s m senderIp hidle hm
    have hnc : ¬ s.callState = CallState.calling := by rw [hidle]; decide
    have hnr : ¬ s.callState = CallState.ringing := by rw [hidle]; decide
    rcases hm with hm | hm | hm <;> rw [hm] <;>
      simp [receive_msg_update, CMD_CALL_ACCEPT, CMD_CALL_REJECT,
        CMD_CALL_CANCEL, CMD_DISCONNECT, hnc, hnr]
  · intro s m hidle hm
    have hnc : ¬ s.callState = CallState.calling := by rw [hidle]; decide
    have hnr : ¬ s.callState = CallState.ringing := by rw [hidle]; decide
    rcases hm with hm | hm | hm <;> rw [hm] <;>
      simp [ui_receive_msg_update, CMD_CALL_REQUEST, CMD_CALL_ACCEPT,
        CMD_CALL_REJECT, CMD_CALL_CANCEL, CMD_DISCONNECT, hnc, hnr]

/-- C3 (witness for the amended theorem): concrete instances of all three
conjuncts. -/
theorem C3_signaling_guards_amended_witness :
    receive_msg_update ⟨.calling, some "1.2.3.4", none, false⟩
        CMD_CALL_ACCEPT (some "9.9.9.9") =
      ⟨.calling, some "1.2.3.4", none, false⟩ ∧
    receive_msg_update ⟨.idle, none, none, false⟩
        CMD_CALL_REJECT (some "9.9.9.9") =
      ⟨.idle, none, none, false⟩ ∧
    ui_receive_msg_update ⟨.idle, none, none, false⟩ CMD_CALL_CANCEL =
      ⟨.idle, none, none, false⟩ := by
  have h := C3_signaling_guards_amended
  refine ⟨?_, ?_, ?_⟩
  · exact h.1 ⟨.calling, some "1.2.3.4", none, false⟩ "9.9.9.9" "1.2.3.4"
      rfl rfl (by decide) (by decide) (by decide)
  · exact h.2.1 ⟨.idle, none, none, false⟩ CMD_CALL_REJECT (some "9.9.9.9")
      rfl (Or.inr (Or.inl rfl))
  · exact h.2.2 ⟨.idle, none, none, false⟩ CMD_CALL_CANCEL rfl
      (Or.inr (Or.inr rfl))

/-- A buffer of odd length fails int16 parsing (numpy raises). -/
theorem parseInt16_odd : ∀ (bs : List Nat), bs.length % 2 = 1 → parseInt16 bs = none
  | [], h => by simp at h
  | [_], _ => rfl
  | _ :: _ :: rest, h => by
    have h' : rest.length % 2 = 1 := by
      simp only [List.length_cons] at h ⊢
      omega
    rw [parseInt16, parseInt16_odd rest h']
    rfl

/-- Parsing consumes two bytes per sample. -/
theorem parseInt16_length : ∀ (bs : List Nat) (ss : List Int),
    parseInt16 bs = some ss → bs.length = 2 * ss.length
  | [], ss, h => by
    simp only [parseInt16, Option.some.injEq] at h
    simp [← h]
  | [_], ss, h => by
    simp [parseInt16] at h
  | b0 :: b1 :: rest, ss, h => by
    rw [parseInt16] at h
    cases hr : parseInt16 rest with
    | none => rw [hr] at h; simp at h
    | some ss' =>
      rw [hr] at h
      simp only [Option.map_some', Option.some.injEq] at h
      have := parseInt16_length rest ss' hr
      simp only [← h, List.length_cons]
      omega

/-- Serialization emits two bytes per sample. -/
theorem toBytes_length (ss : List Int) : (toBytes ss).length = 2 * ss.length := by
  induction ss with
  | nil => rfl
  | cons s ss ih =>
    simp only [toBytes, List.length_cons] at ih ⊢
    omega

/-- Serializing the parsed samples reproduces the original byte buffer. -/
theorem toBytes_parseInt16 : ∀ (bs : List Nat) (ss : List Int),
    (∀ b ∈ bs, b < 256) → parseInt16 bs = some ss → toBytes ss = bs
  | [], ss, _, h => by
    simp only [parseInt16, Option.some.injEq] at h
    simp [← h, toBytes]
  | [_], ss, _, h => by
    simp [parseInt16] at h
  | b0 :: b1 :: rest, ss, hlt, h => by
    rw [parseInt16] at h
    cases hr : parseInt16 rest with
    | none => rw [hr] at h; simp at h
    | some ss' =>
      rw [hr] at h
      simp only [Option.map_some', Option.some.injEq] at h
      have hb0 : b0 < 256 := hlt b0 (by simp)
      have hb1 : b1 < 256 := hlt b1 (by simp)
      have hrest : ∀ b ∈ rest, b < 256 := fun b hb => hlt b (by simp [hb])
      have ih := toBytes_parseInt16 rest ss' hrest hr
      have hv : b0 + 256 * b1 < 65536 := by omega
      have hbytes :
          ((if b0 + 256 * b1 < 32768 then ((b0 + 256 * b1 : Nat) : Int)
            else ((b0 + 256 * b1 : Nat) : Int) - 65536) % 65536).toNat = b0 + 256 * b1 := by
        split
        · rw [Int.emod_eq_of_lt (by positivity) (by exact_mod_cast hv)]
          simp
          omega
        · have h2 : (((b0 + 256 * b1 : Nat) : Int) - 65536) % 65536
              = ((b0 + 256 * b1 : Nat) : Int) % 65536 := by
            omega
          rw [h2, Int.emod_eq_of_lt (by positivity) (by exact_mod_cast hv)]
          simp
          omega
      simp only [← h, toBytes, hbytes, ih, List.cons.injEq]
      exact ⟨by omega, by omega, trivial⟩

/-- C7: every filter stage is fail-open on a malformed (odd-length) byte
buffer: the int16 parse fails, the exception is swallowed, and the stage
returns its input unchanged — it is a total function and never produces
silence on such failures; stages that own state leave it untouched. -/
theorem C7_fail_open (st : FilterState) (bytes : List Nat)
    (hodd : bytes.length % 2 = 1) :
    apply_high_pass_filter st bytes = (bytes, st) ∧
    apply_low_pass_filter st bytes = (bytes, st) ∧
    apply_noise_gate st bytes = (bytes, st) ∧
    apply_spectral_subtraction st bytes = (bytes, st) ∧
    apply_compressor st bytes = (bytes, st) ∧
    apply_notch_filter st bytes = (bytes, st) ∧
    apply_limiter bytes = bytes ∧
    apply_3band_eq bytes = bytes ∧
    apply_gain bytes = bytes := by
  have hp := parseInt16_odd bytes hodd
  refine ⟨?_, ?_, ?_, ?_, ?_, ?_, ?_, ?_, ?_⟩ <;>
    simp [apply_high_pass_filter, apply_low_pass_filter, apply_noise_gate,
      apply_spectral_subtraction, apply_compressor, apply_notch_filter,
      apply_limiter, apply_3band_eq, apply_gain, hp]

/-- C7 (witness): the one-byte buffer `[7]` passes through every stage
unchanged. -/
theorem C7_fail_open_witness :
    ([7] : List Nat).length % 2 = 1 ∧
    apply_high_pass_filter initialFilterState [7] = ([7], initialFilterState) ∧
    apply_limiter [7] = [7] := by
  have h := C7_fail_open initialFilterState [7] (by decide)
  exact ⟨by decide, h.1, h.2.2.2.2.2.2.1⟩

/-- C9: contrary to the claim, the high-pass, low-pass and notch stages
carry no state across frames: the globals `_HP_FILTER_STATE`,
`_LP_FILTER_STATE`, `_NOTCH_FILTER_STATE_1/2` are declared but never read
or written (the notch loop uses freshly zeroed locals), so each of these
stages' output is independent of any previously processed frame and the
state cells are returned untouched. -/
theorem C9_declared_state_unused (st1 st2 : FilterState) (bytes : List Nat) :
    (apply_high_pass_filter st1 bytes).1 = (apply_high_pass_filter st2 bytes).1 ∧
    (apply_high_pass_filter st1 bytes).2 = st1 ∧
    (apply_low_pass_filter st1 bytes).1 = (apply_low_pass_filter st2 bytes).1 ∧
    (apply_low_pass_filter st1 bytes).2 = st1 ∧
    (apply_notch_filter st1 bytes).1 = (apply_notch_filter st2 bytes).1 ∧
    (apply_notch_filter st1 bytes).2 = st1 := by
  cases hp : parseInt16 bytes <;>
    simp [apply_high_pass_filter, apply_low_pass_filter, apply_notch_filter, hp]

/-- The high-pass loop preserves the sample count. -/
theorem hpAux_length (alpha : ℚ) : ∀ (l : List ℚ) (pF pS : ℚ),
    (hpAux alpha pF pS l).length = l.length
  | [], _, _ => rfl
  | _ :: rest, pF, pS => by
    simp only [hpAux, List.length_cons, hpAux_length alpha rest]

/-- The high-pass filter preserves the sample count. -/
theorem hpFilter_length (alpha : ℚ) (l : List ℚ) :
    (hpFilter alpha l).length = l.length := by
  cases l with
  | nil => rfl
  | cons s rest => simp only [hpFilter, List.length_cons, hpAux_length]

/-- The low-pass loop preserves the sample count. -/
theorem lpAux_length (alpha : ℚ) : ∀ (l : List ℚ) (pF : ℚ),
    (lpAux alpha pF l).length = l.length
  | [], _ => rfl
  | _ :: rest, pF => by
    simp only [lpAux, List.length_cons, lpAux_length alpha rest]

/-- The low-pass filter preserves the sample count. -/
theorem lpFilter_length (alpha : ℚ) (l : List ℚ) :
    (lpFilter alpha l).length = l.length := by
  cases l with
  | nil => rfl
  | cons s rest => simp only [lpFilter, List.length_cons, lpAux_length]

/-- The biquad notch loop preserves the sample count. -/
theorem notchLoop_length (b0 b1 b2 a1 a2 : ℝ) : ∀ (l : List ℝ) (s1 s2 : ℝ),
    (notchLoop b0 b1 b2 a1 a2 s1 s2 l).length = l.length
  | [], _, _ => rfl
  | _ :: rest, s1, s2 => by
    simp only [notchLoop, List.length_cons, notchLoop_length b0 b1 b2 a1 a2 rest]

/-- The shelf low-pass helper preserves the sample count. -/
theorem lowpassArrayAux_length (alpha : ℝ) : ∀ (l : List ℝ) (pF : ℝ),
    (lowpassArrayAux alpha pF l).length = l.length
  | [], _ => rfl
  | _ :: rest, pF => by
    simp only [lowpassArrayAux, List.length_cons, lowpassArrayAux_length alpha rest]

/-- Python `apply_simple_lowpass_array` preserves the sample count. -/
theorem apply_simple_lowpass_array_length (alpha : ℝ) (l : List ℝ) :
    (apply_simple_lowpass_array alpha l).length = l.length := by
  cases l with
  | nil => rfl
  | cons s rest =>
    simp only [apply_simple_lowpass_array, List.length_cons, lowpassArrayAux_length]

/-- The shelf high-pass helper preserves the sample count. -/
theorem highpassArrayAux_length (alpha : ℝ) : ∀ (l : List ℝ) (pF pS : ℝ),
    (highpassArrayAux alpha pF pS l).length = l.length
  | [], _, _ => rfl
  | _ :: rest, pF, pS => by
    simp only [highpassArrayAux, List.length_cons, highpassArrayAux_length alpha rest]

/-- Python `apply_simple_highpass_array` preserves the sample count. -/
theorem apply_simple_highpass_array_length (alpha : ℝ) (l : List ℝ) :
    (apply_simple_highpass_array alpha l).length = l.length := by
  cases l with
  | nil => rfl
  | cons s rest =>
    simp only [apply_simple_highpass_array, List.length_cons, highpassArrayAux_length]

/-- The low shelf preserves the sample count. -/
theorem apply_simple_low_shelf_length (l : List ℝ) (f g : ℝ) :
    (apply_simple_low_shelf l f g).length = l.length := by
  simp [apply_simple_low_shelf, apply_simple_lowpass_array_length]

/-- The high shelf preserves the sample count. -/
theorem apply_simple_high_shelf_length (l : List ℝ) (f g : ℝ) :
    (apply_simple_high_shelf l f g).length = l.length := by
  simp [apply_simple_high_shelf, apply_simple_highpass_array_length]

/-- Numpy `np.fft.irfft(X, n)` returns `n` samples. -/
theorem irfft_length (X : List ℂ) (n : ℕ) : (irfft X n).length = n := by
  simp [irfft]

/-- The limiter scaling step preserves the sample count. -/
theorem limiterSamples_length (x : List ℚ) : (limiterSamples x).length = x.length := by
  unfold limiterSamples
  split <;> simp

/-- Noise gate output length equals input length. -/
theorem apply_noise_gate_length (st : FilterState) (b : List Nat) :
    (apply_noise_gate st b).1.length = b.length := by
  cases hp : parseInt16 b with
  | none => simp [apply_noise_gate, hp]
  | some ss =>
    have hl := parseInt16_length b ss hp
    simp only [apply_noise_gate, hp]
    split <;> split <;> simp [toBytes_length, hl]

/-- Spectral subtraction output length equals input length. -/
theorem apply_spectral_subtraction_length (st : FilterState) (b : List Nat) :
    (apply_spectral_subtraction st b).1.length = b.length := by
  cases hp : parseInt16 b with
  | none => simp [apply_spectral_subtraction, hp]
  | some ss =>
    have hl := parseInt16_length b ss hp
    simp only [apply_spectral_subtraction, hp]
    split
    · split
      · rfl
      · split <;> rfl
    · split
      · split
        · split
          · split
            · simp [toBytes_length, irfft_length, hl]
            · rfl
          · rfl
        · rfl
      · rfl

/-- High-pass output length equals input length. -/
theorem apply_high_pass_filter_length (st : FilterState) (b : List Nat) :
    (apply_high_pass_filter st b).1.length = b.length := by
  cases hp : parseInt16 b with
  | none => simp [apply_high_pass_filter, hp]
  | some ss =>
    have hl := parseInt16_length b ss hp
    simp [apply_high_pass_filter, hp, toBytes_length, hpFilter_length, hl]

/-- Low-pass output length equals input length. -/
theorem apply_low_pass_filter_length (st : FilterState) (b : List Nat) :
    (apply_low_pass_filter st b).1.length = b.length := by
  cases hp : parseInt16 b with
  | none => simp [apply_low_pass_filter, hp]
  | some ss =>
    have hl := parseInt16_length b ss hp
    simp [apply_low_pass_filter, hp, toBytes_length, lpFilter_length, hl]

/-- Notch output length equals input length. -/
theorem apply_notch_filter_length (st : FilterState) (b : List Nat) :
    (apply_notch_filter st b).1.length = b.length := by
  cases hp : parseInt16 b with
  | none => simp [apply_notch_filter, hp]
  | some ss =>
    have hl := parseInt16_length b ss hp
    simp [apply_notch_filter, hp, toBytes_length, notchLoop_length, hl]

/-- EQ output length equals input length. -/
theorem apply_3band_eq_length (b : List Nat) :
    (apply_3band_eq b).length = b.length := by
  cases hp : parseInt16 b with
  | none => simp [apply_3band_eq, hp]
  | some ss =>
    have hl := parseInt16_length b ss hp
    simp only [apply_3band_eq, hp, toBytes_length, List.length_map]
    split <;> split <;> split <;>
      simp [apply_simple_low_shelf_length, apply_simple_high_shelf_length, hl]

/-- Compressor output length equals input length. -/
theorem apply_compressor_length (st : FilterState) (b : List Nat) :
    (apply_compressor st b).1.length = b.length := by
  cases hp : parseInt16 b with
  | none => simp [apply_compressor, hp]
  | some ss =>
    have hl := parseInt16_length b ss hp
    simp [apply_compressor, hp, toBytes_length, hl]

/-- Limiter output length equals input length. -/
theorem apply_limiter_length (b : List Nat) :
    (apply_limiter b).length = b.length := by
  cases hp : parseInt16 b with
  | none => simp [apply_limiter, hp]
  | some ss =>
    have hl := parseInt16_length b ss hp
    simp only [apply_limiter, hp]
    split
    · rfl
    · simp [toBytes_length, limiterSamples_length, hl]

/-- Gain output length equals input length. -/
theorem apply_gain_length (b : List Nat) :
    (apply_gain b).length = b.length := by
  cases hp : parseInt16 b with
  | none => simp [apply_gain, hp]
  | some ss =>
    have hl := parseInt16_length b ss hp
    simp [apply_gain, hp, toBytes_length, hl]

/-- Any member bounds a `foldr max` from below. -/
theorem le_foldr_max {α : Type} [LinearOrder α] {a : α} :
    ∀ {l : List α}, a ∈ l → ∀ (z : α), a ≤ l.foldr max z := by
  intro l hmem z
  induction l with
  | nil => cases hmem
  | cons b l ih =>
    rcases List.mem_cons.mp hmem with h | h
    · subst h
      exact le_max_left _ _
    · exact le_trans (ih h) (le_max_right _ _)

/-- A common upper bound of the seed and all members bounds `foldr max`. -/
theorem foldr_max_le {α : Type} [LinearOrder α] :
    ∀ (l : List α) {z c : α}, z ≤ c → (∀ a ∈ l, a ≤ c) → l.foldr max z ≤ c
  | [], _, _, hz, _ => hz
  | b :: l, z, c, hz, h => by
    simp only [List.foldr_cons]
    exact max_le (h b (by simp)) (foldr_max_le l hz (fun a ha => h a (by simp [ha])))

/-- A `foldr max` is the seed or one of the members. -/
theorem foldr_max_choice {α : Type} [LinearOrder α] :
    ∀ (l : List α) (z : α), l.foldr max z = z ∨ l.foldr max z ∈ l
  | [], z => Or.inl rfl
  | b :: l, z => by
    simp only [List.foldr_cons]
    rcases max_choice b (l.foldr max z) with h | h
    · rw [h]
      exact Or.inr (List.mem_cons_self b l)
    · rw [h]
      rcases foldr_max_choice l z with h' | h'
      · exact Or.inl h'
      · exact Or.inr (List.mem_cons_of_mem b h')

/-- The rational peak of the cast samples is the cast integer peak. -/
theorem maxAbsQ_cast (ss : List Int) :
    maxAbsQ (ss.map (fun (s : Int) => (s : ℚ))) = (peakAbs ss : ℚ) := by
  induction ss with
  | nil => simp [maxAbsQ, peakAbs]
  | cons s ss ih =>
    simp only [maxAbsQ, peakAbs, List.map_cons, List.foldr_cons] at ih ⊢
    push_cast
    rw [ih]

/-- Truncation toward zero is the identity on integers. -/
theorem truncQ_intCast (n : ℤ) : truncQ (n : ℚ) = n := by
  unfold truncQ
  split <;> simp

/-- Truncation toward zero never increases the absolute value past an
integer bound. -/
theorem abs_truncQ_le {q : ℚ} {c : ℤ} (h : |q| ≤ (c : ℚ)) :
    |truncQ q| ≤ c := by
  rcases abs_le.mp h with ⟨h1, h2⟩
  unfold truncQ
  split
  · rename_i hq
    rw [abs_of_nonneg (Int.le_floor.mpr (by exact_mod_cast hq))]
    calc ⌊q⌋ ≤ ⌊(c : ℚ)⌋ := Int.floor_le_floor h2
    _ = c := Int.floor_intCast c
  · rename_i hq
    push_neg at hq
    have hle : ⌈q⌉ ≤ 0 := Int.ceil_le.mpr (by exact_mod_cast le_of_lt hq)
    have hge : -c ≤ ⌈q⌉ := by
      calc -c = ⌈((-c : ℤ) : ℚ)⌉ := (Int.ceil_intCast _).symm
      _ ≤ ⌈q⌉ := Int.ceil_le_ceil (by push_cast; linarith)
    rw [abs_of_nonpos hle]
    omega

/-- Clip-and-cast is plain truncation when the value is within 28000 in
absolute value (strictly inside the clip range). -/
theorem npClipCast_of_abs_le {q : ℚ} (h : |q| ≤ 28000) : npClipCast q = truncQ q := by
  rcases abs_le.mp h with ⟨h1, h2⟩
  unfold npClipCast
  rw [min_eq_left (by linarith), max_eq_right (by linarith)]

/-- Clip-and-cast is the identity on int16-range integers. -/
theorem npClipCast_int {s : ℤ} (h1 : -32768 ≤ s) (h2 : s ≤ 32767) :
    npClipCast (s : ℚ) = s := by
  unfold npClipCast
  rw [min_eq_left (by exact_mod_cast h2), max_eq_right (by exact_mod_cast h1)]
  exact truncQ_intCast s

/-- Casting int16-range samples to rationals and clip-casting back is the
identity. -/
theorem map_npClipCast_cast : ∀ (ss : List Int),
    (∀ s ∈ ss, -32768 ≤ s ∧ s ≤ 32767) →
    ((ss.map (fun (s : Int) => (s : ℚ))).map npClipCast) = ss
  | [], _ => rfl
  | s :: ss, h => by
    have hs := h s (by simp)
    simp only [List.map_cons, npClipCast_int hs.1 hs.2, List.cons.injEq]
    exact ⟨trivial, map_npClipCast_cast ss (fun a ha => h a (by simp [ha]))⟩

/-- C5: for a nonempty frame of int16 samples, if the peak absolute sample
exceeds the limiter threshold 28000 then `apply_limiter` scales every
sample by `threshold / peak` and the output peak equals 28000 exactly
(hence never exceeds it); if the peak is at most the threshold the output
bytes equal the input bytes unchanged. -/
theorem C5_limiter_peak (bytes : List Nat) (samples : List Int)
    (hparse : parseInt16 bytes = some samples)
    (hbytes : ∀ b ∈ bytes, b < 256)
    (hne : samples ≠ [])
    (hrange : ∀ s ∈ samples, -32768 ≤ s ∧ s ≤ 32767) :
    (28000 < peakAbs samples →
      apply_limiter bytes =
        toBytes ((limiterSamples (samples.map (fun (s : Int) => (s : ℚ)))).map npClipCast) ∧
      peakAbs ((limiterSamples (samples.map (fun (s : Int) => (s : ℚ)))).map npClipCast)
        = 28000) ∧
    (peakAbs samples ≤ 28000 → apply_limiter bytes = bytes) := by
  have hdef : apply_limiter bytes =
      toBytes ((limiterSamples (samples.map (fun (s : Int) => (s : ℚ)))).map npClipCast) := by
    simp only [apply_limiter, hparse]
    rw [if_neg hne]
  set x : List ℚ := samples.map (fun (s : Int) => (s : ℚ)) with hx
  have hM : maxAbsQ x = (peakAbs samples : ℚ) := maxAbsQ_cast samples
  constructor
  · intro hpeak
    refine ⟨hdef, ?_⟩
    have hMpos : (0 : ℚ) < maxAbsQ x := by
      rw [hM]
      exact_mod_cast lt_trans (by norm_num) hpeak
    have hlt : LIMITER_THRESHOLD < maxAbsQ x := by
      rw [hM]
      unfold LIMITER_THRESHOLD
      exact_mod_cast hpeak
    have hscale : limiterSamples x = x.map (fun v => v * (LIMITER_THRESHOLD / maxAbsQ x)) := by
      unfold limiterSamples
      rw [if_pos hlt]
    -- every scaled-and-truncated sample is bounded by 28000 in absolute value
    have hbound : ∀ u ∈ (limiterSamples x).map npClipCast, |u| ≤ 28000 := by
      intro u hu
      rw [hscale, List.map_map] at hu
      rcases List.mem_map.mp hu with ⟨v, hv, hveq⟩
      have hvle : |v| ≤ maxAbsQ x := le_foldr_max (List.mem_map_of_mem _ hv) 0
      have habs : |v * (LIMITER_THRESHOLD / maxAbsQ x)| ≤ 28000 := by
        rw [abs_mul, abs_of_nonneg (le_of_lt (div_pos (by norm_num [LIMITER_THRESHOLD]) hMpos))]
        calc |v| * (LIMITER_THRESHOLD / maxAbsQ x)
            ≤ maxAbsQ x * (LIMITER_THRESHOLD / maxAbsQ x) := by
              apply mul_le_mul_of_nonneg_right hvle
              exact le_of_lt (div_pos (by norm_num [LIMITER_THRESHOLD]) hMpos)
        _ = LIMITER_THRESHOLD := by
              field_simp
        _ = 28000 := by norm_num [LIMITER_THRESHOLD]
      rw [← hveq, Function.comp_apply, npClipCast_of_abs_le habs]
      exact abs_truncQ_le habs
    -- the peak is attained: some sample has absolute value equal to the peak
    have hattain : ∃ s ∈ samples, |s| = peakAbs samples := by
      rcases foldr_max_choice (samples.map (fun s => |s|)) 0 with h | h
      · exfalso
        unfold peakAbs at hpeak
        rw [h] at hpeak
        exact absurd hpeak (by norm_num)
      · rcases List.mem_map.mp h with ⟨s, hs, hseq⟩
        exact ⟨s, hs, hseq⟩
    rcases hattain with ⟨s, hs, hseq⟩
    -- that sample maps to exactly ±28000 in the output
    have hout : npClipCast ((s : ℚ) * (LIMITER_THRESHOLD / maxAbsQ x)) ∈
        (limiterSamples x).map npClipCast := by
      rw [hscale, List.map_map]
      exact List.mem_map_of_mem _ (List.mem_map_of_mem _ hs)
    have hsabs : |(s : ℚ)| = maxAbsQ x := by
      rw [hM, ← hseq]
      push_cast
      rfl
    have habs28 : |(s : ℚ) * (LIMITER_THRESHOLD / maxAbsQ x)| = 28000 := by
      rw [abs_mul, abs_of_nonneg (le_of_lt (div_pos (by norm_num [LIMITER_THRESHOLD]) hMpos)),
        hsabs]
      field_simp
      norm_num [LIMITER_THRESHOLD]
    have htrunc : |npClipCast ((s : ℚ) * (LIMITER_THRESHOLD / maxAbsQ x))| = 28000 := by
      rcases abs_cases ((s : ℚ) * (LIMITER_THRESHOLD / maxAbsQ x)) with ⟨he, _⟩ | ⟨he, _⟩
      · rw [he] at habs28
        rw [habs28, show ((28000 : ℚ)) = ((28000 : ℤ) : ℚ) by norm_num,
          npClipCast_int (by norm_num) (by norm_num)]
        norm_num
      · have : (s : ℚ) * (LIMITER_THRESHOLD / maxAbsQ x) = -28000 := by
          rw [← habs28, he]
          ring
        rw [this, show ((-28000 : ℚ)) = ((-28000 : ℤ) : ℚ) by norm_num,
          npClipCast_int (by norm_num) (by norm_num)]
        norm_num
    -- peak of the output list: bounded by 28000 and attained
    unfold peakAbs
    apply le_antisymm
    · apply foldr_max_le _ (by norm_num)
      intro a ha
      rcases List.mem_map.mp ha with ⟨u, hu, hueq⟩
      rw [← hueq]
      exact hbound u hu
    · have : |npClipCast ((s : ℚ) * (LIMITER_THRESHOLD / maxAbsQ x))| ∈
          ((limiterSamples x).map npClipCast).map (fun s => |s|) :=
        List.mem_map_of_mem _ hout
      rw [htrunc] at this
      exact le_foldr_max this 0
  · intro hpeak
    have hnlt : ¬ LIMITER_THRESHOLD < maxAbsQ x := by
      rw [hM]
      unfold LIMITER_THRESHOLD
      push_neg
      exact_mod_cast hpeak
    have hid : limiterSamples x = x := by
      unfold limiterSamples
      rw [if_neg hnlt]
    rw [hdef, hid, hx, map_npClipCast_cast samples hrange,
      toBytes_parseInt16 bytes samples hbytes hparse]

/-- C5 (witness): the frame with samples `[30000, 0]` (bytes
`[48, 117, 0, 0]`) has peak 30000 > 28000, and the limited output peak is
exactly 28000. -/
theorem C5_limiter_peak_witness :
    parseInt16 [48, 117, 0, 0] = some [30000, 0] ∧
    28000 < peakAbs [30000, 0] ∧
    peakAbs ((limiterSamples ([30000, 0].map (fun (s : Int) => (s : ℚ)))).map npClipCast)
      = 28000 := by
  have h := C5_limiter_peak [48, 117, 0, 0] [30000, 0] (by decide) (by decide)
    (by decide) (by decide)
  exact ⟨by decide, by decide, (h.1 (by decide)).2⟩

/-- The one-bin DFT of a single-sample frame is the sample itself. -/
theorem rfft_single (r : ℝ) : rfft [r] = [(r : ℂ)] := by
  unfold rfft
  simp [Finset.sum_range_one]

/-- The one-point inverse DFT returns the real part of the single bin. -/
theorem irfft_single (z : ℂ) : irfft [z] 1 = [z.re] := by
  unfold irfft
  simp [Finset.sum_range_one]

/-- Clip-and-cast over `Real` is the identity on int16-range integers. -/
theorem npClipCastR_int {s : ℤ} (h1 : -32768 ≤ s) (h2 : s ≤ 32767) :
    npClipCastR (s : ℝ) = s := by
  unfold npClipCastR truncR
  rw [min_eq_left (by exact_mod_cast h2), max_eq_right (by exact_mod_cast h1)]
  split <;> simp

/-- The single-sample frame `[100]` is quiet: its RMS is below the gate
threshold 200. -/
theorem frameRms_100_lt : frameRms [(100 : ℤ)] < 200 := by
  unfold frameRms listSumSq
  simp
  norm_num

/-- The single-sample frame `[3000]` is loud: its RMS is not below the
gate threshold 200. -/
theorem frameRms_3000_not_lt : ¬ frameRms [(3000 : ℤ)] < 200 := by
  unfold frameRms listSumSq
  simp
  norm_num

/-- Processing the quiet frame `[100]` (bytes `[100, 0]`) from the initial
state learns the noise profile `[100]` and returns the frame unchanged. -/
theorem spectral_first_quiet_frame :
    apply_spectral_subtraction initialFilterState [100, 0] =
      ([100, 0], ⟨0, 0, 0, 0, 0, 0, some [((100 : ℤ) : ℝ)], 1⟩) := by
  have hp1 : parseInt16 [100, 0] = some [100] := by decide
  simp only [apply_spectral_subtraction, hp1]
  rw [if_pos ⟨by norm_num [initialFilterState, NOISE_LEARNING_FRAMES],
    by simp, by simpa [NOISE_GATE_THRESHOLD] using frameRms_100_lt⟩]
  simp [initialFilterState, rfft_single, Complex.abs_ofReal]

/-- Processing the loud frame `[3000]` (bytes `[184, 11]`) with one learned
quiet frame applies the spectral subtraction: the output frame is
`[2930] = [3000 - 0.7 * 100]`, serialized as `[114, 11]`. -/
theorem spectral_loud_after_one :
    (apply_spectral_subtraction
        (⟨0, 0, 0, 0, 0, 0, some [((100 : ℤ) : ℝ)], 1⟩ : FilterState)
        [184, 11]).1 = [114, 11] := by
  have hp2 : parseInt16 [184, 11] = some [3000] := by decide
  simp only [apply_spectral_subtraction, hp2]
  rw [if_neg (by
    intro h
    exact absurd h.2.2 (by simpa [NOISE_GATE_THRESHOLD] using frameRms_3000_not_lt))]
  simp only [rfft_single, List.map_cons, List.map_nil, Complex.abs_ofReal]
  rw [if_pos (by simp), if_pos (by simp), if_pos (by simp)]
  simp only [List.take, List.zipWith]
  rw [if_neg (show ¬((((3000 : ℤ) : ℝ)) : ℂ) = 0 from by norm_num)]
  rw [show Complex.abs ((((3000 : ℤ) : ℝ)) : ℂ) = ((3000 : ℝ)) from by
    rw [Complex.abs_ofReal]; norm_num]
  rw [show (|((3000 : ℤ) : ℝ)| - SPECTRAL_SUBTRACT_ALPHA * ((100 : ℤ) : ℝ)) ⊔
      5e-2 * |((3000 : ℤ) : ℝ)| = (2930 : ℝ) from by
    norm_num [SPECTRAL_SUBTRACT_ALPHA]]
  rw [show ((((3000 : ℤ) : ℝ)) : ℂ) / ((3000 : ℝ) : ℂ) = 1 from by
    push_cast
    exact div_self (by norm_num)]
  rw [mul_one, List.length_singleton, irfft_single, Complex.ofReal_re]
  rw [show ((2930 : ℝ)) = ((2930 : ℤ) : ℝ) from by norm_num]
  simp only [List.map_cons, List.map_nil,
    @npClipCastR_int 2930 (by norm_num) (by norm_num)]
  decide

/-- C6 (counterexample): after a single quiet frame has been learned (one
quiet frame, well before the 20 required by `NOISE_LEARNING_FRAMES`), a
loud frame is processed by the subtraction and comes out changed: the
frame `[3000]` (bytes `[184, 11]`) is returned as `[2930]` (bytes
`[114, 11]`), contradicting the claim that every frame processed before
`NOISE_LEARNING_FRAMES` quiet frames returns unchanged whatever its RMS. -/
theorem C6_spectral_premature_counterexample :
    ((apply_spectral_subtraction initialFilterState [100, 0]).2).learningFrameCount = 1 ∧
    1 < NOISE_LEARNING_FRAMES ∧
    (apply_spectral_subtraction (apply_spectral_subtraction initialFilterState [100, 0]).2
        [184, 11]).1 = [114, 11] ∧
    ([114, 11] : List Nat) ≠ [184, 11] := by
  rw [spectral_first_quiet_frame]
  exact ⟨rfl, by norm_num [NOISE_LEARNING_FRAMES], spectral_loud_after_one, by decide⟩

/-- C6 (amended): before `NOISE_LEARNING_FRAMES` quiet frames have been
accumulated, `apply_spectral_subtraction` returns its input frame exactly
unchanged provided the frame's RMS is below the gate threshold, or no
quiet frame has been learned yet (noise profile unset); once at least one
quiet frame has been learned, a frame with RMS at or above the threshold
is processed by the subtraction even before the learning target is
reached. -/
theorem C6_spectral_learning_amended (st : FilterState) (bytes : List Nat)
    (samples : List Int) (hparse : parseInt16 bytes = some samples)
    (hcount : st.learningFrameCount < NOISE_LEARNING_FRAMES)
    (h : st.noiseProfile = none ∨
      (samples ≠ [] ∧ frameRms samples < NOISE_GATE_THRESHOLD)) :
    (apply_spectral_subtraction st bytes).1 = bytes := by
  simp only [apply_spectral_subtraction, hparse]
  rcases h with h | ⟨hne, hrms⟩
  · split
    · simp [h]
    · simp [h]
  · rw [if_pos ⟨hcount, hne, hrms⟩]
    cases hpr : st.noiseProfile with
    | none => simp [hpr]
    | some p =>
      simp only [hpr]
      split <;> rfl

/-- C6 (witness for the amended theorem): the quiet frame `[0]` from the
initial state passes through unchanged. -/
theorem C6_spectral_learning_amended_witness :
    parseInt16 [0, 0] = some [0] ∧
    initialFilterState.learningFrameCount < NOISE_LEARNING_FRAMES ∧
    (apply_spectral_subtraction initialFilterState [0, 0]).1 = [0, 0] := by
  refine ⟨by decide, by norm_num [initialFilterState, NOISE_LEARNING_FRAMES], ?_⟩
  exact C6_spectral_learning_amended initialFilterState [0, 0] [0] (by decide)
    (by norm_num [initialFilterState, NOISE_LEARNING_FRAMES]) (Or.inl rfl)

/-- C8: for every subset of enabled stages and every input byte buffer —
the all-zero frame and frames at the clipping boundary included —
`apply_all_enabled_filters` returns a buffer of identical length. -/
theorem C8_chain_length (cfg : FilterEnabled) (st : FilterState) (bytes : List Nat) :
    (apply_all_enabled_filters cfg st bytes).1.length = bytes.length := by
  obtain ⟨f1, f2, f3, f4, f5, f6, f7, f8, f9⟩ := cfg
  cases f1 <;> cases f2 <;> cases f3 <;> cases f4 <;> cases f5 <;> cases f6 <;>
    cases f7 <;> cases f8 <;> cases f9 <;>
    simp [apply_all_enabled_filters, apply_noise_gate_length,
      apply_spectral_subtraction_length, apply_high_pass_filter_length,
      apply_low_pass_filter_length, apply_notch_filter_length,
      apply_3band_eq_length, apply_compressor_length, apply_limiter_length,
      apply_gain_length]
